import Mathlib

/-!
Verification of the alignment/padding engine and dispatch logic of
`opensauce/snack.py`.

The padding step (snack.py lines 85-96, and 357-364 per formant channel)
builds, for each raw estimate vector, a head pad of NaN of length
`np.int_(np.floor(window_size / frame_shift / 2))`, a tail pad of NaN of
length `data_len - (len(raw) + len(pad_head))`, and concatenates
`head ++ raw ++ tail` with `np.hstack`.

Modelling choices:
  * cell values are `FVal`: either NaN or a representable number (the
    padding step never computes with the values, it only places them);
  * `frame_shift` and `window_size` are exact rationals and `/` is true
    division (the module does `from __future__ import division`);
  * `np.full(n, np.nan)` is fallible: NumPy raises
    `ValueError: negative dimensions are not allowed` when `n < 0`,
    so it is embedded as an `Option`, `none` being the raised error;
  * the method-dispatch functions `snack_raw_pitch` / `snack_raw_formants`
    perform external I/O in their transport bodies; the embedding keeps
    their control flow (membership test in `valid_snack_methods`, the
    platform guard that opens `snack_raw_pitch_exe` / `snack_raw_formants_exe`)
    and abstracts a successful transport invocation to the tag of the
    transport that would run.
-/

namespace OpenSauce

/-- A floating-point cell as the padding step sees it: NaN or a number.
The engine never does arithmetic on cell values, so numbers are kept exact. -/
inductive FVal where
  | nan : FVal
  | num : ℚ → FVal
deriving DecidableEq, Repr

/-- `np.full(n, np.nan)`: a vector of `n` NaN cells.  NumPy raises
`ValueError: negative dimensions are not allowed` for `n < 0`; the raised
error is `none`. -/
def npFullNan (n : ℤ) : Option (List FVal) :=
  if 0 ≤ n then some (List.replicate n.toNat FVal.nan) else none

/-- `np.int_(np.floor(window_size / frame_shift / 2))` — the head pad
length computed at snack.py lines 87, 93 and 361 (`np.int_` of an already
floored value is exact, also for negative values). -/
def head_len (frame_shift window_size : ℚ) : ℤ :=
  Int.floor (window_size / frame_shift / 2)

/-- The padding step applied to one raw estimate vector
(snack.py lines 87-90, repeated at 93-96 and 361-364):
`pad_head = np.full(head_len, nan)`,
`pad_tail = np.full(data_len - (len(raw) + len(pad_head)), nan)`,
result `np.hstack((pad_head, raw, pad_tail))`. -/
def align (raw : List FVal) (frame_shift window_size : ℚ) (data_len : ℕ) :
    Option (List FVal) := do
  let pad_head ← npFullNan (head_len frame_shift window_size)
  let pad_tail ← npFullNan ((data_len : ℤ) - ((raw.length : ℤ) + (pad_head.length : ℤ)))
  some (pad_head ++ raw ++ pad_tail)

/-- The padding part of `snack_pitch` (snack.py lines 85-98): the identical
padding step applied to the raw F0 vector and to the raw voicing vector. -/
def snack_pitch_pad (F0_raw V_raw : List FVal)
    (frame_shift window_size : ℚ) (data_len : ℕ) :
    Option (List FVal × List FVal) := do
  let F0_out ← align F0_raw frame_shift window_size data_len
  let V_out ← align V_raw frame_shift window_size data_len
  some (F0_out, V_out)

/-- snack.py line 31: variable names for Snack formant and bandwidth vectors. -/
def sformant_names : List String :=
  ["sF1", "sF2", "sF3", "sF4", "sB1", "sB2", "sB3", "sB4"]

/-- The `for n in sformant_names` loop of `snack_formants`
(snack.py lines 358-365): process the names in order, storing each
channel result under its name; an exception in any iteration aborts. -/
def alignChannels (names : List String) (g : String → Option (List FVal)) :
    Option (List (String × List FVal)) :=
  match names with
  | [] => some []
  | n :: rest => do
    let v ← g n
    let tail ← alignChannels rest g
    some ((n, v) :: tail)

/-- The padding part of `snack_formants` (snack.py lines 357-366): for each
name in `sformant_names`, in order, the padding step applied to that
channel of the raw estimates dictionary. -/
def snack_formants_pad (estimates_raw : String → List FVal)
    (frame_shift window_size : ℚ) (data_len : ℕ) :
    Option (List (String × List FVal)) :=
  alignChannels sformant_names fun n =>
    align (estimates_raw n) frame_shift window_size data_len

/-- snack.py line 33. -/
def valid_snack_methods : List String := ["exe", "python", "tcl"]

/-- The transport a successful dispatch would invoke. -/
inductive Transport where
  | exe | python | tcl
deriving DecidableEq, Repr

/-- The two `ValueError` raise sites of the dispatch logic:
snack.py line 123 / 390 (invalid calling method) and
line 138 / 405 (method exe on a non-Windows machine). -/
inductive SnackError where
  | invalidMethod
  | exeNonWindows
deriving DecidableEq, Repr

/-- The platform guard opening `snack_raw_pitch_exe` (snack.py lines 136-138):
it raises before anything else runs; on Windows the transport body follows. -/
def snack_raw_pitch_exe_dispatch (platform : String) : Except SnackError Transport :=
  if platform ≠ "win32" ∧ platform ≠ "cygwin" then
    Except.error SnackError.exeNonWindows
  else
    Except.ok Transport.exe

/-- The dispatch skeleton of `snack_raw_pitch` (snack.py lines 115-123):
membership test in `valid_snack_methods`, then the three-way branch. -/
def snack_raw_pitch_dispatch (platform method : String) : Except SnackError Transport :=
  if method ∈ valid_snack_methods then
    if method = "exe" then snack_raw_pitch_exe_dispatch platform
    else if method = "python" then Except.ok Transport.python
    else Except.ok Transport.tcl
  else Except.error SnackError.invalidMethod

/-- The platform guard opening `snack_raw_formants_exe`
(snack.py lines 403-405), identical to the pitch one. -/
def snack_raw_formants_exe_dispatch (platform : String) : Except SnackError Transport :=
  if platform ≠ "win32" ∧ platform ≠ "cygwin" then
    Except.error SnackError.exeNonWindows
  else
    Except.ok Transport.exe

/-- The dispatch skeleton of `snack_raw_formants` (snack.py lines 382-390). -/
def snack_raw_formants_dispatch (platform method : String) : Except SnackError Transport :=
  if method ∈ valid_snack_methods then
    if method = "exe" then snack_raw_formants_exe_dispatch platform
    else if method = "python" then Except.ok Transport.python
    else Except.ok Transport.tcl
  else Except.error SnackError.invalidMethod

/-! ### Helper lemmas -/

/-- With a nonnegative head length and enough room, the padding step
succeeds and its output is head pad, raw, tail pad. -/
lemma align_eq_some (raw : List FVal) (f w : ℚ) (d : ℕ)
    (h0 : 0 ≤ head_len f w)
    (hle : raw.length + (head_len f w).toNat ≤ d) :
    align raw f w d =
      some (List.replicate (head_len f w).toNat FVal.nan ++ raw ++
        List.replicate (d - raw.length - (head_len f w).toNat) FVal.nan) := by
  unfold align npFullNan
  rw [if_pos h0]
  simp only [Option.bind_eq_bind, Option.some_bind, List.length_replicate]
  have htail : (0 : ℤ) ≤ (d : ℤ) - ((raw.length : ℤ) + (((head_len f w).toNat : ℕ) : ℤ)) := by
    omega
  rw [if_pos htail]
  have harg : ((d : ℤ) - ((raw.length : ℤ) + (((head_len f w).toNat : ℕ) : ℤ))).toNat
      = d - raw.length - (head_len f w).toNat := by
    omega
  rw [harg]
  rfl

/-- Positive parameters make the head length nonnegative. -/
lemma head_len_nonneg (f w : ℚ) (hf : 0 < f) (hw : 0 < w) :
    0 ≤ head_len f w := by
  unfold head_len
  apply Int.floor_nonneg.mpr
  positivity

/-- A window at least one frame long makes the half-window ratio at least
one half, hence its floor nonnegative. -/
lemma head_len_nonneg_of_le (f w : ℚ) (hf : 0 < f) (hfw : f ≤ w) :
    0 ≤ head_len f w :=
  head_len_nonneg f w hf (lt_of_lt_of_le hf hfw)

/-! ### Claim theorems -/

/-- C2: for all positive frame_shift at most window_size, the head pad
built by the alignment step has length exactly
floor(window_size / frame_shift / 2), with floor (truncating) semantics. -/
theorem head_pad_length_eq_floor (f w : ℚ) (hf : 0 < f) (hfw : f ≤ w) :
    ∃ pad, npFullNan (head_len f w) = some pad ∧
      (pad.length : ℤ) = Int.floor (w / f / 2) := by
  have h0 := head_len_nonneg_of_le f w hf hfw
  refine ⟨_, by unfold npFullNan; rw [if_pos h0], ?_⟩
  simp only [List.length_replicate]
  rw [Int.toNat_of_nonneg h0]
  rfl

theorem head_pad_length_eq_floor_witness :
    (0 : ℚ) < 1 ∧ (1 : ℚ) ≤ 25 ∧
    ∃ pad, npFullNan (head_len 1 25) = some pad ∧
      (pad.length : ℤ) = Int.floor ((25 : ℚ) / 1 / 2) :=
  ⟨by norm_num, by norm_num, head_pad_length_eq_floor 1 25 (by norm_num) (by norm_num)⟩

/-- C6: the head pad length for frame_shift 0.001 and window_size 0.025
(seconds) is identical to the one for frame_shift 1 and window_size 25
(milliseconds), namely 12: the length depends only on the ratio
window_size / frame_shift, so it is invariant under the change of units. -/
theorem head_len_unit_invariant :
    head_len 0.001 0.025 = head_len 1 25 ∧ head_len 1 25 = 12 := by
  constructor <;> norm_num [head_len]

/-- C1: with positive parameters and enough room
(len(raw) + head_len at most data_len), the padding step succeeds, the
aligned output has length exactly data_len, and its slice from index
head_len to head_len + len(raw) is raw element-for-element, the raw
values untransformed. -/
theorem align_length_and_slice (raw : List FVal) (f w : ℚ) (d : ℕ)
    (hf : 0 < f) (hw : 0 < w)
    (hle : raw.length + (head_len f w).toNat ≤ d) :
    ∃ out, align raw f w d = some out ∧ out.length = d ∧
      (out.drop (head_len f w).toNat).take raw.length = raw := by
  have h0 := head_len_nonneg f w hf hw
  refine ⟨_, align_eq_some raw f w d h0 hle, ?_, ?_⟩
  · simp only [List.length_append, List.length_replicate]
    omega
  · rw [List.append_assoc,
      List.drop_left' (by simp : (List.replicate (head_len f w).toNat FVal.nan).length
        = (head_len f w).toNat),
      List.take_left' rfl]

theorem align_length_and_slice_witness :
    (0 : ℚ) < 1 ∧ (0 : ℚ) < 25 ∧
    ([FVal.num 100, FVal.num 105, FVal.num 110].length + (head_len 1 25).toNat ≤ 20) ∧
    ∃ out, align [FVal.num 100, FVal.num 105, FVal.num 110] 1 25 20 = some out ∧
      out.length = 20 ∧
      (out.drop (head_len 1 25).toNat).take
        [FVal.num 100, FVal.num 105, FVal.num 110].length
        = [FVal.num 100, FVal.num 105, FVal.num 110] :=
  ⟨by norm_num, by norm_num, by norm_num [head_len]; decide,
    align_length_and_slice [FVal.num 100, FVal.num 105, FVal.num 110] 1 25 20
      (by norm_num) (by norm_num) (by norm_num [head_len]; decide)⟩

/-- C7: at the exact boundary len(raw) + head_len = data_len, the tail pad
length is 0, the tail is empty, the output is head pad followed by raw
with total length data_len, and no error is raised. -/
theorem align_boundary_exact (raw : List FVal) (f w : ℚ) (d : ℕ)
    (hf : 0 < f) (hw : 0 < w)
    (heq : raw.length + (head_len f w).toNat = d) :
    align raw f w d = some (List.replicate (head_len f w).toNat FVal.nan ++ raw) ∧
    (List.replicate (head_len f w).toNat FVal.nan ++ raw).length = d := by
  have h0 := head_len_nonneg f w hf hw
  have h := align_eq_some raw f w d h0 (le_of_eq heq)
  have ht : d - raw.length - (head_len f w).toNat = 0 := by omega
  rw [ht] at h
  constructor
  · simpa using h
  · simp only [List.length_append, List.length_replicate]
    omega

theorem align_boundary_exact_witness :
    (0 : ℚ) < 1 ∧ (0 : ℚ) < 25 ∧
    ([FVal.num 100, FVal.num 105, FVal.num 110].length + (head_len 1 25).toNat = 15) ∧
    (align [FVal.num 100, FVal.num 105, FVal.num 110] 1 25 15
        = some (List.replicate (head_len 1 25).toNat FVal.nan ++
            [FVal.num 100, FVal.num 105, FVal.num 110]) ∧
      (List.replicate (head_len 1 25).toNat FVal.nan ++
        [FVal.num 100, FVal.num 105, FVal.num 110]).length = 15) :=
  ⟨by norm_num, by norm_num, by norm_num [head_len]; decide,
    align_boundary_exact [FVal.num 100, FVal.num 105, FVal.num 110] 1 25 15
      (by norm_num) (by norm_num) (by norm_num [head_len]; decide)⟩

/-- C4: with positive parameters and enough room, every element of the
aligned output at an index outside [head_len, head_len + len(raw)) is NaN:
the first head_len elements and the last data_len - head_len - len(raw)
elements are all NaN. -/
theorem align_outside_raw_nan (raw : List FVal) (f w : ℚ) (d : ℕ)
    (hf : 0 < f) (hw : 0 < w)
    (hle : raw.length + (head_len f w).toNat ≤ d) :
    ∃ out, align raw f w d = some out ∧
      ∀ (i : ℕ) (hi : i < out.length),
        (i < (head_len f w).toNat ∨ (head_len f w).toNat + raw.length ≤ i) →
          out.get ⟨i, hi⟩ = FVal.nan := by
  have h0 := head_len_nonneg f w hf hw
  refine ⟨_, align_eq_some raw f w d h0 hle, ?_⟩
  intro i hi hout
  rw [List.get_eq_getElem]
  rcases hout with hlt | hge
  · have h1 : i < (List.replicate (head_len f w).toNat FVal.nan ++ raw).length := by
      simp only [List.length_append, List.length_replicate]
      omega
    have h2 : i < (List.replicate (head_len f w).toNat FVal.nan).length := by
      simp only [List.length_replicate]
      omega
    rw [List.getElem_append_left h1, List.getElem_append_left h2, List.getElem_replicate]
  · have h1 : (List.replicate (head_len f w).toNat FVal.nan ++ raw).length ≤ i := by
      simp only [List.length_append, List.length_replicate]
      omega
    rw [List.getElem_append_right h1, List.getElem_replicate]

theorem align_outside_raw_nan_witness :
    (0 : ℚ) < 1 ∧ (0 : ℚ) < 25 ∧
    ([FVal.num 100, FVal.num 105, FVal.num 110].length + (head_len 1 25).toNat ≤ 20) ∧
    ∃ out, align [FVal.num 100, FVal.num 105, FVal.num 110] 1 25 20 = some out ∧
      ∀ (i : ℕ) (hi : i < out.length),
        (i < (head_len 1 25).toNat ∨
          (head_len 1 25).toNat + [FVal.num 100, FVal.num 105, FVal.num 110].length ≤ i) →
          out.get ⟨i, hi⟩ = FVal.nan :=
  ⟨by norm_num, by norm_num, by norm_num [head_len]; decide,
    align_outside_raw_nan [FVal.num 100, FVal.num 105, FVal.num 110] 1 25 20
      (by norm_num) (by norm_num) (by norm_num [head_len]; decide)⟩

/-- C10: with positive parameters and enough room at data_len, the aligned
output for data_len + k is the aligned output for data_len followed by k
NaN elements: extending data_len only appends NaN at the tail, and the
head pad and the raw segment do not depend on data_len. -/
theorem align_extend_data_len (raw : List FVal) (f w : ℚ) (d k : ℕ)
    (hf : 0 < f) (hw : 0 < w)
    (hle : raw.length + (head_len f w).toNat ≤ d) :
    ∃ out, align raw f w d = some out ∧
      align raw f w (d + k) = some (out ++ List.replicate k FVal.nan) := by
  have h0 := head_len_nonneg f w hf hw
  refine ⟨_, align_eq_some raw f w d h0 hle, ?_⟩
  rw [align_eq_some raw f w (d + k) h0 (by omega)]
  have harg : d + k - raw.length - (head_len f w).toNat
      = (d - raw.length - (head_len f w).toNat) + k := by omega
  rw [harg, List.replicate_add, ← List.append_assoc]

theorem align_extend_data_len_witness :
    (0 : ℚ) < 1 ∧ (0 : ℚ) < 25 ∧
    ([FVal.num 100, FVal.num 105, FVal.num 110].length + (head_len 1 25).toNat ≤ 16) ∧
    ∃ out, align [FVal.num 100, FVal.num 105, FVal.num 110] 1 25 16 = some out ∧
      align [FVal.num 100, FVal.num 105, FVal.num 110] 1 25 (16 + 4)
        = some (out ++ List.replicate 4 FVal.nan) :=
  ⟨by norm_num, by norm_num, by norm_num [head_len]; decide,
    align_extend_data_len [FVal.num 100, FVal.num 105, FVal.num 110] 1 25 16 4
      (by norm_num) (by norm_num) (by norm_num [head_len]; decide)⟩

/-- C3 counterexample: with raw of length 3, frame_shift 1, window_size 25
(head length 12) and data_len 2, the tail pad length is negative; the
claim says the padding step lets the negative-length pad evaluate to an
empty pad and raises no error, but np.full rejects the negative dimension,
so the padding step errors (returns none). -/
theorem align_overrun_errors_on_example :
    align [FVal.num 100, FVal.num 105, FVal.num 110] 1 25 2 = none := by
  have h : head_len 1 25 = 12 := by norm_num [head_len]
  simp [align, npFullNan, h]

/-- C3 amended: when len(raw) + head_len > data_len the requested tail pad
length is negative and building it fails (NumPy rejects negative
dimensions with a ValueError), so the alignment step raises rather than
silently truncating; under positive parameters it errors exactly when
len(raw) + head_len > data_len. -/
theorem align_none_iff_overrun (raw : List FVal) (f w : ℚ) (d : ℕ)
    (hf : 0 < f) (hw : 0 < w) :
    align raw f w d = none ↔ (d : ℤ) < (raw.length : ℤ) + head_len f w := by
  have h0 := head_len_nonneg f w hf hw
  constructor
  · intro h
    by_contra hcon
    push_neg at hcon
    have hle : raw.length + (head_len f w).toNat ≤ d := by omega
    rw [align_eq_some raw f w d h0 hle] at h
    exact Option.noConfusion h
  · intro hlt
    unfold align npFullNan
    rw [if_pos h0]
    simp only [Option.bind_eq_bind, Option.some_bind, List.length_replicate]
    rw [if_neg (by omega :
      ¬ (0 : ℤ) ≤ (d : ℤ) - ((raw.length : ℤ) + (((head_len f w).toNat : ℕ) : ℤ)))]
    rfl

theorem align_none_iff_overrun_witness :
    (0 : ℚ) < 1 ∧ (0 : ℚ) < 25 ∧
    (align [FVal.num 100] 1 25 5 = none ↔
      (5 : ℤ) < ([FVal.num 100].length : ℤ) + head_len 1 25) :=
  ⟨by norm_num, by norm_num,
    align_none_iff_overrun [FVal.num 100] 1 25 5 (by norm_num) (by norm_num)⟩

/-- Looking up a name in the list built by the channel loop recovers the
value the option-valued function yields for that name. -/
lemma alignChannels_lookup (g : String → Option (List FVal)) :
    ∀ (names : List String) (m : List (String × List FVal)),
      alignChannels names g = some m →
      ∀ n ∈ names, m.lookup n = g n := by
  intro names
  induction names with
  | nil =>
    intro m _ n hn
    exact absurd hn (List.not_mem_nil n)
  | cons a t ih =>
    intro m hm n hn
    simp only [alignChannels] at hm
    cases hga : g a with
    | none => rw [hga] at hm; simp at hm
    | some v =>
      rw [hga] at hm
      cases hmt : alignChannels t g with
      | none => rw [hmt] at hm; simp at hm
      | some xs =>
        rw [hmt] at hm
        simp only [Option.bind_eq_bind, Option.some_bind, Option.some.injEq] at hm
        subst hm
        rcases List.mem_cons.mp hn with hna | hnt
        · subst hna
          simp [List.lookup, hga]
        · by_cases hna : n = a
          · subst hna
            simp [List.lookup, hga]
          · have hb : (n == a) = false := beq_eq_false_iff_ne.mpr hna
            simp only [List.lookup, hb]
            exact ih xs hmt n hnt

/-- C5: the value snack_formants stores at each channel name is the
single-channel alignment, with the same parameters, of the raw sequence
of that channel alone; since the right-hand side reads only that
channel's raw data, no channel's raw data affects another channel's
output. -/
theorem snack_formants_per_channel (raw_map : String → List FVal)
    (f w : ℚ) (d : ℕ) (m : List (String × List FVal))
    (hm : snack_formants_pad raw_map f w d = some m)
    (n : String) (hn : n ∈ sformant_names) :
    m.lookup n = align (raw_map n) f w d :=
  alignChannels_lookup (fun n => align (raw_map n) f w d) sformant_names m hm n hn

theorem snack_formants_per_channel_witness :
    snack_formants_pad (fun _ => []) 1 25 12
        = some (sformant_names.map fun n => (n, List.replicate 12 FVal.nan)) ∧
    "sF1" ∈ sformant_names ∧
    (sformant_names.map fun n => (n, List.replicate 12 FVal.nan)).lookup "sF1"
        = align ((fun _ => ([] : List FVal)) "sF1") 1 25 12 := by
  have h12 : head_len 1 25 = 12 := by norm_num [head_len]
  have hpad : snack_formants_pad (fun _ => []) 1 25 12
      = some (sformant_names.map fun n => (n, List.replicate 12 FVal.nan)) := by
    simp [snack_formants_pad, sformant_names, alignChannels, align, npFullNan, h12]
  exact ⟨hpad, by decide,
    snack_formants_per_channel (fun _ => []) 1 25 12 _ hpad "sF1" (by decide)⟩

/-- If the option-valued function succeeds on every listed name with a
value satisfying P, the channel loop succeeds, the keys are the names in
order, and every stored value satisfies P. -/
lemma alignChannels_spec (g : String → Option (List FVal)) (P : List FVal → Prop) :
    ∀ names : List String, (∀ n ∈ names, ∃ v, g n = some v ∧ P v) →
      ∃ m, alignChannels names g = some m ∧
        m.map Prod.fst = names ∧ ∀ p ∈ m, P p.2 := by
  intro names
  induction names with
  | nil =>
    intro _
    exact ⟨[], rfl, rfl, by simp⟩
  | cons a t ih =>
    intro h
    obtain ⟨v, hv, hPv⟩ := h a (List.mem_cons_self a t)
    obtain ⟨m, hm, hkeys, hP⟩ := ih fun n hn => h n (List.mem_cons_of_mem a hn)
    refine ⟨(a, v) :: m, ?_, ?_, ?_⟩
    · simp only [alignChannels, hv, hm, Option.bind_eq_bind, Option.some_bind]
    · simp [hkeys]
    · intro p hp
      rcases List.mem_cons.mp hp with hp | hp
      · subst hp
        exact hPv
      · exact hP p hp

/-- C8: with positive parameters and every channel fitting in data_len,
snack_formants returns a mapping whose keys are exactly the 8 channel
names sF1..sF4, sB1..sB4 in order, and every stored sequence has length
exactly data_len. -/
theorem snack_formants_keys_lengths (raw_map : String → List FVal)
    (f w : ℚ) (d : ℕ) (hf : 0 < f) (hw : 0 < w)
    (hle : ∀ n ∈ sformant_names, (raw_map n).length + (head_len f w).toNat ≤ d) :
    ∃ m, snack_formants_pad raw_map f w d = some m ∧
      m.map Prod.fst = sformant_names ∧ ∀ p ∈ m, p.2.length = d := by
  have h0 := head_len_nonneg f w hf hw
  refine alignChannels_spec (fun n => align (raw_map n) f w d)
    (fun v => v.length = d) sformant_names fun n hn => ?_
  refine ⟨_, align_eq_some (raw_map n) f w d h0 (hle n hn), ?_⟩
  simp only [List.length_append, List.length_replicate]
  have := hle n hn
  omega

theorem snack_formants_keys_lengths_witness :
    (0 : ℚ) < 1 ∧ (0 : ℚ) < 25 ∧
    (∀ n ∈ sformant_names,
      ((fun _ => ([] : List FVal)) n).length + (head_len 1 25).toNat ≤ 12) ∧
    ∃ m, snack_formants_pad (fun _ => []) 1 25 12 = some m ∧
      m.map Prod.fst = sformant_names ∧ ∀ p ∈ m, p.2.length = 12 :=
  ⟨by norm_num, by norm_num,
    fun n _ => by norm_num [head_len],
    snack_formants_keys_lengths (fun _ => []) 1 25 12 (by norm_num) (by norm_num)
      (fun n _ => by norm_num [head_len])⟩

/-- C9: a method string outside exe, python, tcl makes both
snack_raw_pitch and snack_raw_formants raise the invalid-method
ValueError before any transport is invoked, and the method exe on a
platform that is neither win32 nor cygwin makes both raise the
non-Windows ValueError. -/
theorem snack_raw_dispatch_config_errors (platform method : String) :
    (method ∉ valid_snack_methods →
      snack_raw_pitch_dispatch platform method = Except.error SnackError.invalidMethod ∧
      snack_raw_formants_dispatch platform method = Except.error SnackError.invalidMethod) ∧
    (platform ≠ "win32" → platform ≠ "cygwin" →
      snack_raw_pitch_dispatch platform "exe" = Except.error SnackError.exeNonWindows ∧
      snack_raw_formants_dispatch platform "exe" = Except.error SnackError.exeNonWindows) := by
  constructor
  · intro h
    unfold snack_raw_pitch_dispatch snack_raw_formants_dispatch
    rw [if_neg h, if_neg h]
    exact ⟨rfl, rfl⟩
  · intro h1 h2
    have hmem : "exe" ∈ valid_snack_methods := by decide
    unfold snack_raw_pitch_dispatch snack_raw_formants_dispatch
      snack_raw_pitch_exe_dispatch snack_raw_formants_exe_dispatch
    rw [if_pos hmem, if_pos (rfl : ("exe" : String) = "exe"),
      if_pos (⟨h1, h2⟩ : platform ≠ "win32" ∧ platform ≠ "cygwin")]
    exact ⟨rfl, rfl⟩

theorem snack_raw_dispatch_config_errors_witness :
    ("bogus" ∉ valid_snack_methods ∧
      snack_raw_pitch_dispatch "linux" "bogus" = Except.error SnackError.invalidMethod ∧
      snack_raw_formants_dispatch "linux" "bogus" = Except.error SnackError.invalidMethod) ∧
    ("linux" ≠ "win32" ∧ "linux" ≠ "cygwin" ∧
      snack_raw_pitch_dispatch "linux" "exe" = Except.error SnackError.exeNonWindows ∧
      snack_raw_formants_dispatch "linux" "exe" = Except.error SnackError.exeNonWindows) := by
  constructor
  · have h : ("bogus" : String) ∉ valid_snack_methods := by decide
    exact ⟨h, (snack_raw_dispatch_config_errors "linux" "bogus").1 h⟩
  · have h1 : ("linux" : String) ≠ "win32" := by decide
    have h2 : ("linux" : String) ≠ "cygwin" := by decide
    exact ⟨h1, h2, (snack_raw_dispatch_config_errors "linux" "bogus").2 h1 h2⟩

end OpenSauce
